import Mathlib

/-!
Verification of the GolfRating geospatial engine.

The definitions below are shallow embeddings of the TypeScript source:
`calculateDistance` and `calculateArea` (identical across the app variants in
`src/index.tsx`, `src/index-v2.tsx`, `src/App.tsx`, `src/index-fallback.tsx`),
the mapping-session sample filter and auto-closure effect, the track-session
pivot logic, and the derived metrics.  Floating-point `number` arithmetic is
modelled by exact real arithmetic over `ℝ`; JS `Math.atan2` is modelled by the
standard piecewise `atan2` definition.
-/

namespace GolfRating

/-- JS `Math.round x` is `⌊x + 1/2⌋` (round half towards positive infinity). -/
noncomputable def jsRound (x : ℝ) : ℤ := ⌊x + 1 / 2⌋

/-- The `PointType` union `'green' | 'bunker'` from the source. -/
inductive PointType where
  | green
  | bunker
deriving DecidableEq

/-- The `GeoPoint` record of the source: latitude and longitude in degrees,
optional altitude, horizontal accuracy, a timestamp, and the optional
`type?: PointType` tag used by the mapping sessions. -/
structure GeoPoint where
  lat : ℝ
  lng : ℝ
  alt : Option ℝ
  accuracy : ℝ
  timestamp : ℕ
  ptype : Option PointType

instance : Inhabited GeoPoint := ⟨⟨0, 0, none, 0, 0, none⟩⟩

/-- JS `Math.atan2 y x`: the angle of the point `(x, y)`, by the usual
piecewise definition in terms of `arctan`. -/
noncomputable def atan2 (y x : ℝ) : ℝ :=
  if 0 < x then Real.arctan (y / x)
  else if x < 0 ∧ 0 ≤ y then Real.arctan (y / x) + Real.pi
  else if x < 0 ∧ y < 0 then Real.arctan (y / x) - Real.pi
  else if x = 0 ∧ 0 < y then Real.pi / 2
  else if x = 0 ∧ y < 0 then -(Real.pi / 2)
  else 0

/-- `calculateDistance` from the source (`src/index.tsx` lines 37-48,
`src/index-v2.tsx` lines 49-60): the haversine distance in meters on a
sphere of radius `6371e3` m. -/
noncomputable def calculateDistance (p1 p2 : GeoPoint) : ℝ :=
  let R : ℝ := 6371000
  let phi1 := p1.lat * Real.pi / 180
  let phi2 := p2.lat * Real.pi / 180
  let dphi := (p2.lat - p1.lat) * Real.pi / 180
  let dlam := (p2.lng - p1.lng) * Real.pi / 180
  let a := Real.sin (dphi / 2) * Real.sin (dphi / 2) +
    Real.cos phi1 * Real.cos phi2 * (Real.sin (dlam / 2) * Real.sin (dlam / 2))
  let c := 2 * atan2 (Real.sqrt a) (Real.sqrt (1 - a))
  R * c

lemma calculateDistance_comm (p1 p2 : GeoPoint) :
    calculateDistance p1 p2 = calculateDistance p2 p1 := by
  simp only [calculateDistance]
  have hlat : (p1.lat - p2.lat) * Real.pi / 180 / 2
      = -((p2.lat - p1.lat) * Real.pi / 180 / 2) := by ring
  have hlng : (p1.lng - p2.lng) * Real.pi / 180 / 2
      = -((p2.lng - p1.lng) * Real.pi / 180 / 2) := by ring
  rw [hlat, hlng]
  simp only [Real.sin_neg]
  ring_nf

lemma calculateDistance_self (p : GeoPoint) : calculateDistance p p = 0 := by
  simp only [calculateDistance, sub_self, zero_mul, zero_div, Real.sin_zero,
    mul_zero, add_zero, zero_add, Real.sqrt_zero, sub_zero, Real.sqrt_one]
  simp [atan2, Real.arctan_zero]

/-- C1: the haversine distance primitive is symmetric, and zero for
coincident points. -/
theorem claim_C1_distance_symm_and_zero :
    (∀ a b : GeoPoint, calculateDistance a b = calculateDistance b a) ∧
    (∀ a : GeoPoint, calculateDistance a a = 0) :=
  ⟨calculateDistance_comm, calculateDistance_self⟩

/-- For two points on the same meridian whose latitudes differ by less than
180°, the haversine distance is exactly `R` times the angular separation in
radians.  This closed form lets concrete distances be evaluated in proofs. -/
lemma calculateDistance_meridian (p1 p2 : GeoPoint) (hlng : p1.lng = p2.lng)
    (hle : p1.lat ≤ p2.lat) (hlt : p2.lat - p1.lat < 180) :
    calculateDistance p1 p2 = 6371000 * ((p2.lat - p1.lat) * Real.pi / 180) := by
  have hpi := Real.pi_pos
  simp only [calculateDistance, hlng, sub_self, zero_mul, zero_div, Real.sin_zero,
    mul_zero, add_zero]
  set t := (p2.lat - p1.lat) * Real.pi / 180 / 2 with ht
  have h0t : 0 ≤ t := by
    rw [ht]
    apply div_nonneg (div_nonneg (mul_nonneg (by linarith) hpi.le) (by norm_num)) (by norm_num)
  have htlt : t < Real.pi / 2 := by
    rw [ht]
    have h := mul_lt_mul_of_pos_right hlt hpi
    linarith
  have hsin : 0 ≤ Real.sin t :=
    Real.sin_nonneg_of_nonneg_of_le_pi h0t (by linarith)
  have hcos : 0 < Real.cos t :=
    Real.cos_pos_of_mem_Ioo ⟨by linarith, htlt⟩
  have hsub : 1 - Real.sin t * Real.sin t = Real.cos t * Real.cos t := by
    linear_combination -(Real.sin_sq_add_cos_sq t)
  rw [hsub, Real.sqrt_mul_self hsin, Real.sqrt_mul_self hcos.le]
  have hatan : atan2 (Real.sin t) (Real.cos t) = t := by
    simp only [atan2]
    rw [if_pos hcos, ← Real.tan_eq_sin_div_cos, Real.arctan_tan (by linarith) htlt]
  rw [hatan, ht]
  ring

/-- `calculateArea` from the source (`src/index.tsx` lines 53-67,
`src/index-v2.tsx` lines 66-80): 0 for fewer than 3 vertices, else the
absolute shoelace sum halved over the tangent-plane projection anchored at
the first vertex's latitude.  The JS `for` loop accumulating `area` is a
fold over `List.range`; JS array indexing is `List.getD`. -/
noncomputable def calculateArea (points : List GeoPoint) : ℝ :=
  if points.length < 3 then 0 else
  let R : ℝ := 6371000
  let lat0 := (points.getD 0 default).lat * Real.pi / 180
  let coords := points.map (fun p =>
    (p.lng * Real.pi / 180 * R * Real.cos lat0, p.lat * Real.pi / 180 * R))
  let area := (List.range coords.length).foldl (fun acc i =>
    acc + ((coords.getD i (0, 0)).1 * (coords.getD ((i + 1) % coords.length) (0, 0)).2
      - (coords.getD ((i + 1) % coords.length) (0, 0)).1 * (coords.getD i (0, 0)).2)) 0
  |area| / 2

/-- The planar `x` coordinate the spec prescribes for vertex `i`:
`x = lng° · (π/180) · R · cos(lat0°·π/180)` with `lat0` the first vertex's
latitude and `R = 6,371,000`. -/
noncomputable def specProjX (points : List GeoPoint) (i : ℕ) : ℝ :=
  (points.getD i default).lng * (Real.pi / 180) * 6371000 *
    Real.cos ((points.getD 0 default).lat * (Real.pi / 180))

/-- The planar `y` coordinate the spec prescribes for vertex `i`:
`y = lat° · (π/180) · R`. -/
noncomputable def specProjY (points : List GeoPoint) (i : ℕ) : ℝ :=
  (points.getD i default).lat * (Real.pi / 180) * 6371000

/-- The area value the spec prescribes (§4.5): 0 below 3 vertices, else
`|Σ (x_i·y_{i+1} − x_{i+1}·y_i)| / 2` with indices modulo the vertex count. -/
noncomputable def shoelaceSpecArea (points : List GeoPoint) : ℝ :=
  if points.length < 3 then 0 else
  |∑ i ∈ Finset.range points.length,
      (specProjX points i * specProjY points ((i + 1) % points.length)
        - specProjX points ((i + 1) % points.length) * specProjY points i)| / 2

lemma foldl_add_eq_sum (f : ℕ → ℝ) (n : ℕ) (a : ℝ) :
    (List.range n).foldl (fun acc i => acc + f i) a = a + ∑ i ∈ Finset.range n, f i := by
  induction n generalizing a with
  | zero => simp
  | succ n ih =>
    rw [List.range_succ, List.foldl_append, ih, Finset.sum_range_succ]
    simp [add_assoc]

/-- C2: the implemented area computation agrees with the spec's description:
0 for fewer than 3 vertices, otherwise the absolute shoelace sum halved over
the tangent-plane projection, indices taken modulo the vertex count. -/
theorem claim_C2_area_shoelace (points : List GeoPoint) :
    calculateArea points = shoelaceSpecArea points := by
  by_cases h : points.length < 3
  · simp [calculateArea, shoelaceSpecArea, h]
  · simp only [calculateArea, shoelaceSpecArea, if_neg h]
    rw [foldl_add_eq_sum, zero_add]
    congr 1
    congr 1
    rw [List.length_map]
    apply Finset.sum_congr rfl
    intro i hi
    have hn : 0 < points.length := by omega
    have hi' : i < points.length := Finset.mem_range.mp hi
    have hj' : (i + 1) % points.length < points.length := Nat.mod_lt _ hn
    have hmap : ∀ k, k < points.length →
        ((points.map (fun p =>
          (p.lng * Real.pi / 180 * 6371000 *
              Real.cos ((points.getD 0 default).lat * Real.pi / 180),
            p.lat * Real.pi / 180 * 6371000))).getD k (0, 0))
        = ((points.getD k default).lng * Real.pi / 180 * 6371000 *
              Real.cos ((points.getD 0 default).lat * Real.pi / 180),
            (points.getD k default).lat * Real.pi / 180 * 6371000) := by
      intro k hk
      rw [List.getD_eq_getElem _ _ (by simpa using hk), List.getElem_map,
        List.getD_eq_getElem _ _ hk]
    rw [hmap i hi', hmap _ hj']
    simp only [specProjX, specProjY]
    ring_nf

/-! ## Mapping sessions -/

/-- The `MappingState` record of `src/App.tsx` / `src/index.tsx` (first app):
`{ isActive, isBunkerActive, points, isClosed }`. -/
structure MappingState where
  isActive : Bool
  isBunkerActive : Bool
  points : List GeoPoint
  isClosed : Bool

/-- The mapping branch of `handlePositionUpdate` (`src/App.tsx` lines
203-214): runs only when the session is active and not closed; admits the
first point unconditionally (tagged `green`); afterwards appends the sample
tagged by bunker mode iff it is at least `0.5` m from the last vertex. -/
noncomputable def handlePositionUpdateMapping (prev : MappingState) (newPoint : GeoPoint) :
    MappingState :=
  if prev.isActive = true ∧ prev.isClosed = false then
    match prev.points.getLast? with
    | none => { prev with points := [{ newPoint with ptype := some PointType.green }] }
    | some lastPoint =>
      if 0.5 ≤ calculateDistance lastPoint newPoint then
        { prev with points := (prev.points ++
            [{ newPoint with ptype := (some
                (if prev.isBunkerActive = true then PointType.bunker else PointType.green)) }]) }
      else prev
  else prev

/-- One `(perimeter, bunkerLength)` pass over consecutive vertex pairs, as in
the `for` loops of `areaMetrics` (`src/index.tsx` lines 695-701) and
`grnStats` (`src/index.tsx` lines 174-177): each edge's length is added to
the perimeter, and also to the bunker length when the edge's destination
vertex is tagged `bunker`. -/
noncomputable def legSums : List GeoPoint → ℝ × ℝ
  | p :: q :: rest =>
    let tail := legSums (q :: rest)
    let d := calculateDistance p q
    (d + tail.1, (if q.ptype = some PointType.bunker then d else 0) + tail.2)
  | _ => (0, 0)

/-- The perimeter computed by `areaMetrics` (`src/index.tsx` lines 690-711):
the open walked perimeter, plus the closing edge `last→first` when the
session is completed — or when the walk already loops back to within 1 m of
the start — and there are more than 2 points.  (`areaMetrics` itself is
`null` for fewer than 2 points; callers relevant here guard on more.) -/
noncomputable def amPerimeter (mapPoints : List GeoPoint) (mapCompleted : Bool) : ℝ :=
  let per := (legSums mapPoints).1
  let isClosed := mapCompleted = true ∨ (2 < mapPoints.length ∧
    calculateDistance (mapPoints.getLastD default) (mapPoints.getD 0 default) < 1)
  if isClosed ∧ 2 < mapPoints.length then
    per + calculateDistance (mapPoints.getLastD default) (mapPoints.getD 0 default)
  else per

/-- The bunker length computed by `areaMetrics`: the sum of the lengths of
edges whose destination vertex is tagged `bunker`.  The closing edge is never
included. -/
noncomputable def amBunkerLength (mapPoints : List GeoPoint) : ℝ :=
  (legSums mapPoints).2

/-- The bunker percentage computed by `areaMetrics` / `grnStats`:
`Math.round((bunkerLength / perimeter) * 100)` when the perimeter is
positive, else 0. -/
noncomputable def amBunkerPct (mapPoints : List GeoPoint) (mapCompleted : Bool) : ℤ :=
  if 0 < amPerimeter mapPoints mapCompleted then
    jsRound (amBunkerLength mapPoints / amPerimeter mapPoints mapCompleted * 100)
  else 0

/-- The state read by the green-mapper sample effect of `src/index.tsx`
(second app, lines 733-750) / `src/unnamed/part_003` lines 357-366. -/
structure MapEffState where
  mapActive : Bool
  mapCompleted : Bool
  isBunker : Bool
  mapPoints : List GeoPoint

/-- The green-mapper sample effect (`src/index.tsx` lines 733-750): when the
mapper is active, appends the sample (tagged by bunker mode) iff the vertex
list is empty or the sample is at least `0.5` m from the last vertex; then
evaluates auto-closure against the *pre-append* state captured by the React
closure: if the previous list had more than 5 points, the previous
`areaMetrics` perimeter exceeded 5 m (the `areaMetrics &&` null-guard is
subsumed: more than 5 points implies at least 2), and the sample is within
1 m of the first previous vertex, `finalizeMapping` sets
`mapActive := false` and `mapCompleted := true`. -/
noncomputable def mapEffectStep (st : MapEffState) (pos : GeoPoint) : MapEffState :=
  if st.mapActive = true then
    let newPoints :=
      match st.mapPoints.getLast? with
      | none => st.mapPoints ++
          [{ pos with ptype := (some
              (if st.isBunker = true then PointType.bunker else PointType.green)) }]
      | some last =>
        if 0.5 ≤ calculateDistance last pos then
          st.mapPoints ++
            [{ pos with ptype := (some
                (if st.isBunker = true then PointType.bunker else PointType.green)) }]
        else st.mapPoints
    if 5 < st.mapPoints.length ∧ 5 < amPerimeter st.mapPoints st.mapCompleted ∧
        calculateDistance pos (st.mapPoints.getD 0 default) < 1 then
      { st with mapPoints := newPoints, mapActive := false, mapCompleted := true }
    else { st with mapPoints := newPoints }
  else st

/-- The tag given to an admitted sample: `bunker` while bunker mode is held,
else `green`. -/
def sampleTag (bunkerActive : Bool) : Option PointType :=
  some (if bunkerActive = true then PointType.bunker else PointType.green)

/-- Whatever the auto-closure decision, the vertex list produced by the
mapping effect is the filtered append. -/
lemma mapEffectStep_mapPoints (st : MapEffState) (pos : GeoPoint) (hA : st.mapActive = true) :
    (mapEffectStep st pos).mapPoints =
      match st.mapPoints.getLast? with
      | none => st.mapPoints ++ [{ pos with ptype := sampleTag st.isBunker }]
      | some last =>
        if 0.5 ≤ calculateDistance last pos then
          st.mapPoints ++ [{ pos with ptype := sampleTag st.isBunker }]
        else st.mapPoints := by
  simp only [mapEffectStep, sampleTag]
  rw [if_pos hA]
  split <;> rfl

/-- C3: in an active, non-closed mapping session that already holds a vertex,
a candidate sample is appended iff it is at least the movement threshold
(0.5 m) away from the last vertex, and a closer candidate leaves the state
unchanged — in both the `src/App.tsx` handler and the `src/index.tsx`
mapping effect. -/
theorem claim_C3_admit_iff_threshold
    (prev : MappingState) (st : MapEffState) (pt l l' : GeoPoint)
    (hA : prev.isActive = true) (hC : prev.isClosed = false)
    (hl : prev.points.getLast? = some l)
    (hA' : st.mapActive = true) (hl' : st.mapPoints.getLast? = some l') :
    (((handlePositionUpdateMapping prev pt).points = prev.points ++
        [{ pt with ptype := sampleTag prev.isBunkerActive }]
      ↔ 0.5 ≤ calculateDistance l pt)
    ∧ (calculateDistance l pt < 0.5 → handlePositionUpdateMapping prev pt = prev))
    ∧ (((mapEffectStep st pt).mapPoints = st.mapPoints ++
        [{ pt with ptype := sampleTag st.isBunker }]
      ↔ 0.5 ≤ calculateDistance l' pt)
    ∧ (calculateDistance l' pt < 0.5 → (mapEffectStep st pt).mapPoints = st.mapPoints)) := by
  constructor
  · simp only [handlePositionUpdateMapping, hA, hC, hl, sampleTag]
    by_cases hd : (0.5 : ℝ) ≤ calculateDistance l pt
    · simp [hd]
    · simp [hd, lt_of_not_le hd]
  · rw [mapEffectStep_mapPoints st pt hA', hl']
    by_cases hd : (0.5 : ℝ) ≤ calculateDistance l' pt
    · simp [hd]
    · simp [hd, lt_of_not_le hd]

/-- A sample point on the prime meridian at the given latitude (degrees). -/
noncomputable def mkPt (lat : ℝ) : GeoPoint := ⟨lat, 0, none, 0, 0, none⟩

lemma dist_mkPt (a b : ℝ) (h : a ≤ b) (h2 : b - a < 180) :
    calculateDistance (mkPt a) (mkPt b) = 6371000 * ((b - a) * Real.pi / 180) :=
  calculateDistance_meridian (mkPt a) (mkPt b) rfl h h2

/-- Witness for C3 at a concrete state: one recorded vertex at the equator,
candidate at the pole (far beyond 0.5 m), appended by both variants. -/
theorem claim_C3_admit_iff_threshold_witness :
    (handlePositionUpdateMapping ⟨true, false, [mkPt 0], false⟩ (mkPt 90)).points
      = [mkPt 0] ++ [{ mkPt 90 with ptype := sampleTag false }]
    ∧ (mapEffectStep ⟨true, false, false, [mkPt 0]⟩ (mkPt 90)).mapPoints
      = [mkPt 0] ++ [{ mkPt 90 with ptype := sampleTag false }] := by
  have hd : (0.5 : ℝ) ≤ calculateDistance (mkPt 0) (mkPt 90) := by
    rw [dist_mkPt 0 90 (by norm_num) (by norm_num)]
    nlinarith [Real.pi_gt_three]
  have h := claim_C3_admit_iff_threshold ⟨true, false, [mkPt 0], false⟩
    ⟨true, false, false, [mkPt 0]⟩ (mkPt 90) (mkPt 0) (mkPt 0) rfl rfl rfl rfl rfl
  exact ⟨h.1.1.mpr hd, h.2.1.mpr hd⟩

/-- C10: when the vertex list is empty, an incoming sample is admitted and
appended as the first vertex unconditionally (no distance test is possible),
in both the `src/App.tsx` handler (which tags it `green`) and the
`src/index.tsx` / `src/index-fallback.tsx` mapping effect (which tags it by
the current bunker mode). -/
theorem claim_C10_first_vertex_unconditional :
    (∀ (prev : MappingState) (pt : GeoPoint), prev.isActive = true →
      prev.isClosed = false → prev.points = [] →
      (handlePositionUpdateMapping prev pt).points = [{ pt with ptype := some PointType.green }])
    ∧ (∀ (st : MapEffState) (pt : GeoPoint), st.mapActive = true → st.mapPoints = [] →
      (mapEffectStep st pt).mapPoints = [{ pt with ptype := sampleTag st.isBunker }]) := by
  constructor
  · intro prev pt hA hC hpts
    simp [handlePositionUpdateMapping, hA, hC, hpts]
  · intro st pt hA hpts
    rw [mapEffectStep_mapPoints st pt hA, hpts]
    simp

/-- Witness for C10: a fresh active session admits the very first sample. -/
theorem claim_C10_first_vertex_unconditional_witness :
    (handlePositionUpdateMapping ⟨true, false, [], false⟩ (mkPt 0)).points
      = [{ mkPt 0 with ptype := some PointType.green }]
    ∧ (mapEffectStep ⟨true, false, false, []⟩ (mkPt 0)).mapPoints
      = [{ mkPt 0 with ptype := sampleTag false }] :=
  ⟨claim_C10_first_vertex_unconditional.1 ⟨true, false, [], false⟩ (mkPt 0) rfl rfl rfl,
   claim_C10_first_vertex_unconditional.2 ⟨true, false, false, []⟩ (mkPt 0) rfl rfl⟩

/-! ## Track sessions -/

/-- `currentLegDist` (`src/index.tsx` lines 760-765): the distance from the
last pivot — or, when no pivots exist (JS `lastPivot || trkStart`), the start
anchor — to the live position; 0 without a fix or a start. -/
noncomputable def currentLegDist (pos trkStart : Option GeoPoint)
    (trkPivots : List GeoPoint) : ℝ :=
  match pos, trkStart with
  | some p, some s => calculateDistance ((trkPivots.getLast?).getD s) p
  | _, _ => 0

/-- `accumulatedDist` (`src/index.tsx` lines 767-779): the JS `forEach` over
the pivots carrying the running total and the last chain point, then the
distance from the last chain point to the live position; 0 without a start
or a fix. -/
noncomputable def accumulatedDist (trkStart : Option GeoPoint)
    (trkPivots : List GeoPoint) (pos : Option GeoPoint) : ℝ :=
  match trkStart, pos with
  | some s, some p =>
    let acc := trkPivots.foldl
      (fun acc pivot => (acc.1 + calculateDistance acc.2 pivot, pivot)) ((0 : ℝ), s)
    acc.1 + calculateDistance acc.2 p
  | _, _ => 0

/-- The spec's per-leg decomposition: the sum of the distances between
consecutive points of the chain starting at `a`. -/
noncomputable def chainDistance : GeoPoint → List GeoPoint → ℝ
  | _, [] => 0
  | a, b :: rest => calculateDistance a b + chainDistance b rest

/-- The last anchor of the chain start-then-pivots. -/
def lastAnchor (s : GeoPoint) (pivots : List GeoPoint) : GeoPoint :=
  (s :: pivots).getLast (List.cons_ne_nil s pivots)

lemma lastAnchor_nil (s : GeoPoint) : lastAnchor s [] = s := rfl

lemma lastAnchor_cons (s q : GeoPoint) (rest : List GeoPoint) :
    lastAnchor s (q :: rest) = lastAnchor q rest :=
  List.getLast_cons (List.cons_ne_nil q rest)

lemma getLast?_getD_eq_lastAnchor (pivots : List GeoPoint) (s : GeoPoint) :
    (pivots.getLast?).getD s = lastAnchor s pivots := by
  induction pivots generalizing s with
  | nil => rfl
  | cons q rest ih =>
    cases rest with
    | nil => rfl
    | cons r rr =>
      rw [List.getLast?_cons_cons, lastAnchor_cons, ← ih q]
      cases h : (r :: rr).getLast? with
      | none => simp at h
      | some x => rfl

lemma accumulatedDist_fold (p : GeoPoint) (pivots : List GeoPoint) (s : GeoPoint) (t : ℝ) :
    (pivots.foldl (fun acc pivot => (acc.1 + calculateDistance acc.2 pivot, pivot)) (t, s)).1
      + calculateDistance
        (pivots.foldl (fun acc pivot => (acc.1 + calculateDistance acc.2 pivot, pivot)) (t, s)).2 p
    = t + chainDistance s (pivots ++ [p]) := by
  induction pivots generalizing s t with
  | nil => simp [chainDistance]
  | cons q rest ih =>
    simp only [List.foldl_cons, List.cons_append, List.append_eq, chainDistance]
    rw [ih q (t + calculateDistance s q)]
    ring

lemma chainDistance_append_last (s p : GeoPoint) (pivots : List GeoPoint) :
    chainDistance s (pivots ++ [p])
      = chainDistance s pivots + calculateDistance (lastAnchor s pivots) p := by
  induction pivots generalizing s with
  | nil => simp [chainDistance, lastAnchor_nil]
  | cons q rest ih =>
    simp only [List.cons_append, List.append_eq, chainDistance, ih q, lastAnchor_cons]
    ring

/-- C4: with a start anchor, up to 3 pivots, and a live tip, the accumulated
distance is the chained sum over start-then-pivots plus the last-anchor-to-
tip leg, the current leg is the last-anchor-to-tip distance, and hence the
total equals the sum of all per-leg distances. -/
theorem claim_C4_total_and_leg_distance (s p : GeoPoint) (pivots : List GeoPoint)
    (_hp : pivots.length ≤ 3) :
    accumulatedDist (some s) pivots (some p)
      = chainDistance s pivots + calculateDistance (lastAnchor s pivots) p
    ∧ currentLegDist (some p) (some s) pivots = calculateDistance (lastAnchor s pivots) p
    ∧ accumulatedDist (some s) pivots (some p) = chainDistance s (pivots ++ [p]) := by
  have htot : accumulatedDist (some s) pivots (some p) = chainDistance s (pivots ++ [p]) := by
    simp only [accumulatedDist]
    exact accumulatedDist_fold p pivots s 0 |>.trans (by rw [zero_add])
  refine ⟨?_, ?_, htot⟩
  · rw [htot, chainDistance_append_last]
  · simp only [currentLegDist, getLast?_getD_eq_lastAnchor]

/-- Witness for C4 on a concrete one-pivot track. -/
theorem claim_C4_total_and_leg_distance_witness :
    accumulatedDist (some (mkPt 0)) [mkPt 1] (some (mkPt 2))
      = chainDistance (mkPt 0) [mkPt 1]
        + calculateDistance (lastAnchor (mkPt 0) [mkPt 1]) (mkPt 2)
    ∧ currentLegDist (some (mkPt 2)) (some (mkPt 0)) [mkPt 1]
      = calculateDistance (lastAnchor (mkPt 0) [mkPt 1]) (mkPt 2)
    ∧ accumulatedDist (some (mkPt 0)) [mkPt 1] (some (mkPt 2))
      = chainDistance (mkPt 0) ([mkPt 1] ++ [mkPt 2]) :=
  claim_C4_total_and_leg_distance (mkPt 0) (mkPt 2) [mkPt 1] (by simp)

/-- The live-track state of `src/index.tsx` (second app). -/
structure TrackState where
  trkActive : Bool
  trkStart : Option GeoPoint
  trkPivots : List GeoPoint

/-- Starting a track (`src/index.tsx` lines 1086-1089): store the current
fix as the start anchor and clear the pivots. -/
def startTrack (pos : Option GeoPoint) : TrackState := ⟨true, pos, []⟩

/-- `addPivot` (`src/index.tsx` lines 806-810): record the current fix as a
pivot only when a fix exists and fewer than 3 pivots are recorded. -/
def addPivot (pos : Option GeoPoint) (st : TrackState) : TrackState :=
  match pos with
  | some p =>
    if st.trkPivots.length < 3 then { st with trkPivots := st.trkPivots ++ [p] } else st
  | none => st

/-- `undoPivot` (`src/index.tsx` lines 812-814): JS `slice(0, -1)` drops the
last pivot; the start anchor is a separate field and is never touched. -/
def undoPivot (st : TrackState) : TrackState := { st with trkPivots := st.trkPivots.dropLast }

/-- Track states reachable from `startTrack` via the pivot commands. -/
inductive TrackReachable : TrackState → Prop
  | start (pos : Option GeoPoint) : TrackReachable (startTrack pos)
  | add (pos : Option GeoPoint) (st : TrackState) :
      TrackReachable st → TrackReachable (addPivot pos st)
  | undo (st : TrackState) : TrackReachable st → TrackReachable (undoPivot st)

lemma trackReachable_pivots_le_three (st : TrackState) (h : TrackReachable st) :
    st.trkPivots.length ≤ 3 := by
  induction h with
  | start pos => simp [startTrack]
  | add pos st _ ih =>
    cases pos with
    | none => exact ih
    | some p =>
      simp only [addPivot]
      split
      · next hlt => simp only [List.length_append, List.length_cons, List.length_nil]; omega
      · exact ih
  | undo st _ ih =>
    simp only [undoPivot, List.length_dropLast]
    omega

/-- C8: every reachable track state carries between 1 and 4 anchors (the
start plus at most 3 pivots); `addPivot` appends only below 3 pivots and is
otherwise a no-op, and `undoPivot` never touches the start anchor. -/
theorem claim_C8_anchor_bounds :
    (∀ st : TrackState, TrackReachable st →
      1 ≤ 1 + st.trkPivots.length ∧ 1 + st.trkPivots.length ≤ 4)
    ∧ (∀ (p : GeoPoint) (st : TrackState), st.trkPivots.length < 3 →
      (addPivot (some p) st).trkPivots = st.trkPivots ++ [p])
    ∧ (∀ (pos : Option GeoPoint) (st : TrackState), 3 ≤ st.trkPivots.length →
      addPivot pos st = st)
    ∧ (∀ st : TrackState, (undoPivot st).trkStart = st.trkStart) := by
  refine ⟨?_, ?_, ?_, ?_⟩
  · intro st h
    have := trackReachable_pivots_le_three st h
    omega
  · intro p st hlt
    simp [addPivot, hlt]
  · intro pos st hge
    cases pos with
    | none => rfl
    | some p => simp [addPivot, Nat.not_lt.mpr hge]
  · intro st
    rfl

/-- Witness for C8 on concrete states: a started track with one recorded
pivot stays within the anchor bounds, `addPivot` appends there, a 3-pivot
state rejects a fourth, and `undoPivot` keeps the start. -/
theorem claim_C8_anchor_bounds_witness :
    (1 ≤ 1 + (addPivot (some (mkPt 1)) (startTrack (some (mkPt 0)))).trkPivots.length
      ∧ 1 + (addPivot (some (mkPt 1)) (startTrack (some (mkPt 0)))).trkPivots.length ≤ 4)
    ∧ (addPivot (some (mkPt 1)) (startTrack (some (mkPt 0)))).trkPivots = [] ++ [mkPt 1]
    ∧ addPivot (some (mkPt 4)) ⟨true, some (mkPt 0), [mkPt 1, mkPt 2, mkPt 3]⟩
      = ⟨true, some (mkPt 0), [mkPt 1, mkPt 2, mkPt 3]⟩
    ∧ (undoPivot ⟨true, some (mkPt 0), [mkPt 1]⟩).trkStart = some (mkPt 0) := by
  refine ⟨?_, ?_, ?_, ?_⟩
  · exact claim_C8_anchor_bounds.1 _
      (TrackReachable.add (some (mkPt 1)) _ (TrackReachable.start (some (mkPt 0))))
  · exact claim_C8_anchor_bounds.2.1 (mkPt 1) (startTrack (some (mkPt 0))) (by simp [startTrack])
  · exact claim_C8_anchor_bounds.2.2.1 (some (mkPt 4)) _ (by simp)
  · exact claim_C8_anchor_bounds.2.2.2 _

/-! ## Elevation delta -/

/-- `elevDelta` (`src/index.tsx` lines 781-783, `src/index-fallback.tsx`
lines 164-166): the live altitude minus the start altitude when a fix, a
start point, and both altitudes exist; otherwise the numeric value 0 (the
ternary's fallback). -/
noncomputable def elevDelta (pos trkStart : Option GeoPoint) : ℝ :=
  match pos, trkStart with
  | some p, some s =>
    match p.alt, s.alt with
    | some pa, some sa => pa - sa
    | _, _ => 0
  | _, _ => 0

/-- What the code reports for the elevation readout: always the numeric
`elevDelta` (the UI renders `formatAlt(elevDelta, units)` with no non-numeric
branch, `src/index.tsx` line 1144), encoded as an always-`some` option. -/
noncomputable def elevReport (pos trkStart : Option GeoPoint) : Option ℝ :=
  some (elevDelta pos trkStart)

/-- The reporting behaviour the claim asserts, following the spec's words:
the numeric difference only when both altitudes are present, and `none`
("no data") otherwise. -/
noncomputable def elevReportSpec (pos trkStart : Option GeoPoint) : Option ℝ :=
  match pos, trkStart with
  | some p, some s =>
    match p.alt, s.alt with
    | some pa, some sa => some (pa - sa)
    | _, _ => none
  | _, _ => none

/-- A sample point on the prime meridian at the equator with the given
altitude. -/
noncomputable def mkAlt (a : ℝ) : GeoPoint := ⟨0, 0, some a, 0, 0, none⟩

/-- Counterexample to C9: with a `null` live altitude the code reports the
numeric value 0, not the "no data" marker the claim requires. -/
theorem claim_C9_counterexample :
    (mkPt 0).alt = none
    ∧ elevReport (some (mkPt 0)) (some (mkAlt 2)) = some 0
    ∧ elevReportSpec (some (mkPt 0)) (some (mkAlt 2)) = none
    ∧ elevReport (some (mkPt 0)) (some (mkAlt 2))
        ≠ elevReportSpec (some (mkPt 0)) (some (mkAlt 2)) := by
  refine ⟨rfl, rfl, rfl, ?_⟩
  intro h
  simp [elevReport, elevReportSpec, mkPt, mkAlt, elevDelta] at h

/-- C9 as amended: `elevDelta` is the altitude difference when both
altitudes are present, and the numeric value 0 — not a "no data" report —
when either altitude is `null`. -/
theorem claim_C9_elev_delta_amended (p s : GeoPoint) :
    (∀ pa sa : ℝ, p.alt = some pa → s.alt = some sa →
      elevDelta (some p) (some s) = pa - sa)
    ∧ ((p.alt = none ∨ s.alt = none) → elevDelta (some p) (some s) = 0) := by
  constructor
  · intro pa sa hp hs
    simp [elevDelta, hp, hs]
  · intro h
    rcases h with h | h
    · simp [elevDelta, h]
    · cases hp : p.alt <;> simp [elevDelta, h, hp]

/-- Witness for the amended C9 at concrete altitudes. -/
theorem claim_C9_elev_delta_amended_witness :
    elevDelta (some (mkAlt 5)) (some (mkAlt 2)) = 5 - 2
    ∧ elevDelta (some (mkPt 0)) (some (mkAlt 2)) = 0 :=
  ⟨(claim_C9_elev_delta_amended (mkAlt 5) (mkAlt 2)).1 5 2 rfl rfl,
   (claim_C9_elev_delta_amended (mkPt 0) (mkAlt 2)).2 (Or.inl rfl)⟩

/-! ## Closing the loop -/

/-- The error vocabulary of the spec for closing a polygon. -/
inductive CloseError where
  | insufficientVertices
deriving DecidableEq

/-- The CLOSE LOOP control of `src/index.tsx` (first app, line 300): the
click sets `isClosed := true`; the button is disabled — the command fails,
the spec's `InsufficientVertices` — while `points.length < 3`. -/
def forceClose (grn : MappingState) : Except CloseError MappingState :=
  if grn.points.length < 3 then Except.error CloseError.insufficientVertices
  else Except.ok { grn with isClosed := true }

/-- `closeLoopPossible` (`src/index-v2.tsx` lines 217-221): the v2 CLOSE
LOOP button is enabled only for an active, unclosed session with at least 3
vertices, a live fix, and the fix within 6 m of the first vertex. -/
noncomputable def closeLoopPossible (grn : MappingState) (pos : Option GeoPoint) : Prop :=
  match pos with
  | none => False
  | some p => grn.isActive = true ∧ grn.isClosed = false ∧ 3 ≤ grn.points.length ∧
      calculateDistance p (grn.points.getD 0 default) ≤ 6

open Classical in
/-- The v2 CLOSE LOOP click (`src/index-v2.tsx` line 484): sets
`isClosed := true`, but is reachable only when `closeLoopPossible` holds
(the button is disabled otherwise). -/
noncomputable def closeLoopV2 (grn : MappingState) (pos : Option GeoPoint) : MappingState :=
  if closeLoopPossible grn pos then { grn with isClosed := true } else grn

/-- Counterexample to C7: in the `src/index-v2.tsx` variant the close-loop
control does not succeed with exactly 3 vertices when the live fix is far
from the first vertex — the 6 m proximity gate blocks it, so "succeeds with
exactly 3" fails there. -/
theorem claim_C7_counterexample :
    (⟨true, false, [mkPt 0, mkPt 1, mkPt 2], false⟩ : MappingState).points.length = 3
    ∧ ¬ closeLoopPossible ⟨true, false, [mkPt 0, mkPt 1, mkPt 2], false⟩ (some (mkPt 100))
    ∧ closeLoopV2 ⟨true, false, [mkPt 0, mkPt 1, mkPt 2], false⟩ (some (mkPt 100))
        = ⟨true, false, [mkPt 0, mkPt 1, mkPt 2], false⟩
    ∧ (closeLoopV2 ⟨true, false, [mkPt 0, mkPt 1, mkPt 2], false⟩
        (some (mkPt 100))).isClosed = false := by
  have hfar : ¬ closeLoopPossible ⟨true, false, [mkPt 0, mkPt 1, mkPt 2], false⟩
      (some (mkPt 100)) := by
    intro h
    have hd := h.2.2.2
    rw [show ((⟨true, false, [mkPt 0, mkPt 1, mkPt 2], false⟩ :
        MappingState).points.getD 0 default) = mkPt 0 from rfl] at hd
    rw [calculateDistance_comm, dist_mkPt 0 100 (by norm_num) (by norm_num)] at hd
    nlinarith [Real.pi_gt_three]
  have hstay : closeLoopV2 ⟨true, false, [mkPt 0, mkPt 1, mkPt 2], false⟩ (some (mkPt 100))
      = ⟨true, false, [mkPt 0, mkPt 1, mkPt 2], false⟩ := by
    unfold closeLoopV2
    rw [if_neg hfar]
  exact ⟨rfl, hfar, hstay, by rw [hstay]⟩

/-- C7 as amended: in the `src/index.tsx` variant force-close fails with
`InsufficientVertices` below 3 vertices (leaving the session unchanged) and
succeeds from 3 on; in the `src/index-v2.tsx` variant at least 3 vertices
are still necessary, but closing additionally requires an active unclosed
session whose live fix is within 6 m of the first vertex. -/
theorem claim_C7_force_close_amended (grn : MappingState) (pos : Option GeoPoint) :
    (grn.points.length < 3 → forceClose grn = Except.error CloseError.insufficientVertices)
    ∧ (3 ≤ grn.points.length → forceClose grn = Except.ok { grn with isClosed := true })
    ∧ (closeLoopPossible grn pos → 3 ≤ grn.points.length ∧
        closeLoopV2 grn pos = { grn with isClosed := true })
    ∧ (¬ closeLoopPossible grn pos → closeLoopV2 grn pos = grn) := by
  refine ⟨?_, ?_, ?_, ?_⟩
  · intro h
    simp [forceClose, h]
  · intro h
    simp [forceClose, Nat.not_lt.mpr h]
  · intro h
    refine ⟨?_, ?_⟩
    · cases pos with
      | none => exact absurd h not_false
      | some p => exact h.2.2.1
    · unfold closeLoopV2
      rw [if_pos h]
  · intro h
    unfold closeLoopV2
    rw [if_neg h]

/-- Witness for the amended C7: 2 vertices fail, 3 succeed, and the v2
close fires when the fix sits on the first vertex. -/
theorem claim_C7_force_close_amended_witness :
    forceClose ⟨true, false, [mkPt 0, mkPt 1], false⟩
      = Except.error CloseError.insufficientVertices
    ∧ forceClose ⟨true, false, [mkPt 0, mkPt 1, mkPt 2], false⟩
      = Except.ok { (⟨true, false, [mkPt 0, mkPt 1, mkPt 2], false⟩ : MappingState) with
          isClosed := true }
    ∧ closeLoopV2 ⟨true, false, [mkPt 0, mkPt 1, mkPt 2], false⟩ (some (mkPt 0))
      = { (⟨true, false, [mkPt 0, mkPt 1, mkPt 2], false⟩ : MappingState) with
          isClosed := true } := by
  have hpose : closeLoopPossible ⟨true, false, [mkPt 0, mkPt 1, mkPt 2], false⟩
      (some (mkPt 0)) := by
    refine ⟨rfl, rfl, by simp, ?_⟩
    rw [show ((⟨true, false, [mkPt 0, mkPt 1, mkPt 2], false⟩ :
        MappingState).points.getD 0 default) = mkPt 0 from rfl]
    rw [calculateDistance_self]
    norm_num
  exact ⟨(claim_C7_force_close_amended ⟨true, false, [mkPt 0, mkPt 1], false⟩ none).1
      (by simp),
    (claim_C7_force_close_amended ⟨true, false, [mkPt 0, mkPt 1, mkPt 2], false⟩ none).2.1
      (by simp),
    ((claim_C7_force_close_amended ⟨true, false, [mkPt 0, mkPt 1, mkPt 2], false⟩
      (some (mkPt 0))).2.2.1 hpose).2⟩

/-! ## Bunker percentage -/

/-- A meridian sample tagged `bunker`. -/
noncomputable def bkPt (lat : ℝ) : GeoPoint := ⟨lat, 0, none, 0, 0, some PointType.bunker⟩

/-- A meridian sample tagged `green`. -/
noncomputable def grPt (lat : ℝ) : GeoPoint := ⟨lat, 0, none, 0, 0, some PointType.green⟩

/-- One degree of latitude in meters on the model sphere. -/
noncomputable def deg1 : ℝ := 6371000 * Real.pi / 180

lemma deg1_pos : 0 < deg1 := by
  unfold deg1
  positivity

lemma jsRound_zero : jsRound 0 = 0 := by
  unfold jsRound
  rw [Int.floor_eq_iff]
  norm_num

lemma jsRound_75 : jsRound (75 : ℝ) = 75 := by
  unfold jsRound
  rw [Int.floor_eq_iff]
  norm_num

lemma legSums_snd_eq_zero (points : List GeoPoint)
    (h : ∀ p ∈ points, p.ptype ≠ some PointType.bunker) : (legSums points).2 = 0 := by
  induction points with
  | nil => rfl
  | cons p rest ih =>
    cases rest with
    | nil => rfl
    | cons q rr =>
      have hq := h q (by simp)
      simp only [legSums]
      rw [if_neg hq, ih (fun x hx => h x (List.mem_cons_of_mem p hx))]
      norm_num

lemma legSums_snd_eq_fst_of_bunker (points : List GeoPoint)
    (h : ∀ p ∈ points, p.ptype = some PointType.bunker) :
    (legSums points).2 = (legSums points).1 := by
  induction points with
  | nil => rfl
  | cons p rest ih =>
    cases rest with
    | nil => rfl
    | cons q rr =>
      have hq := h q (by simp)
      simp only [legSums]
      rw [if_pos hq, ih (fun x hx => h x (List.mem_cons_of_mem p hx))]

/-- C6 as amended: an all-`Green` closed polygon has `bunkerPercentage` 0;
for an all-`Bunker` polygon the bunker length equals the *open* walked
perimeter — the closing edge is excluded — so for a closed polygon the
percentage is `round(100·open/(open+closing))`, not necessarily 100. -/
theorem claim_C6_bunker_percentage_amended (points : List GeoPoint) (completed : Bool) :
    ((∀ p ∈ points, p.ptype = some PointType.green) → amBunkerPct points completed = 0)
    ∧ ((∀ p ∈ points, p.ptype = some PointType.bunker) →
        amBunkerLength points = (legSums points).1
        ∧ (2 < points.length → amPerimeter points true
            = (legSums points).1
              + calculateDistance (points.getLastD default) (points.getD 0 default))
        ∧ (0 < amPerimeter points completed →
            amBunkerPct points completed
              = jsRound ((legSums points).1 / amPerimeter points completed * 100))) := by
  constructor
  · intro hg
    have hz : (legSums points).2 = 0 := by
      apply legSums_snd_eq_zero
      intro p hp
      rw [hg p hp]
      intro hcontra
      exact PointType.noConfusion (Option.some.inj hcontra)
    unfold amBunkerPct amBunkerLength
    split
    · rw [hz, zero_div, zero_mul, jsRound_zero]
    · rfl
  · intro hb
    have hq : amBunkerLength points = (legSums points).1 := by
      unfold amBunkerLength
      exact legSums_snd_eq_fst_of_bunker points hb
    refine ⟨hq, ?_, ?_⟩
    · intro hlen
      unfold amPerimeter
      rw [if_pos ⟨Or.inl rfl, hlen⟩]
    · intro hper
      unfold amBunkerPct
      rw [if_pos hper, hq]

/-- Witness for the amended C6: an all-green closed loop reports 0 %, and on
an all-bunker list the bunker length equals the open perimeter. -/
theorem claim_C6_bunker_percentage_amended_witness :
    amBunkerPct [grPt 0, grPt 1, grPt 2, grPt 1] true = 0
    ∧ amBunkerLength [bkPt 0, bkPt 1, bkPt 2, bkPt 1]
      = (legSums [bkPt 0, bkPt 1, bkPt 2, bkPt 1]).1 := by
  constructor
  · apply (claim_C6_bunker_percentage_amended [grPt 0, grPt 1, grPt 2, grPt 1] true).1
    intro p hp
    simp only [List.mem_cons, List.not_mem_nil, or_false] at hp
    rcases hp with rfl | rfl | rfl | rfl <;> rfl
  · apply ((claim_C6_bunker_percentage_amended [bkPt 0, bkPt 1, bkPt 2, bkPt 1] true).2 ?_).1
    intro p hp
    simp only [List.mem_cons, List.not_mem_nil, or_false] at hp
    rcases hp with rfl | rfl | rfl | rfl <;> rfl

/-- Counterexample to C6: a closed, all-`Bunker` 4-vertex loop with four
equal 1°-latitude legs has `bunkerPercentage` 75, not 100 — the closing edge
counts towards the perimeter but never towards the bunker length. -/
theorem claim_C6_counterexample :
    (bkPt 0).ptype = some PointType.bunker
    ∧ (bkPt 1).ptype = some PointType.bunker
    ∧ (bkPt 2).ptype = some PointType.bunker
    ∧ 3 ≤ ([bkPt 0, bkPt 1, bkPt 2, bkPt 1] : List GeoPoint).length
    ∧ amBunkerPct [bkPt 0, bkPt 1, bkPt 2, bkPt 1] true = 75
    ∧ (75 : ℤ) ≠ 100 := by
  have h1 : calculateDistance (bkPt 0) (bkPt 1) = deg1 := by
    rw [calculateDistance_meridian (bkPt 0) (bkPt 1) rfl (by norm_num [bkPt])
      (by norm_num [bkPt])]
    simp only [bkPt]
    unfold deg1
    ring
  have h2 : calculateDistance (bkPt 1) (bkPt 2) = deg1 := by
    rw [calculateDistance_meridian (bkPt 1) (bkPt 2) rfl (by norm_num [bkPt])
      (by norm_num [bkPt])]
    simp only [bkPt]
    unfold deg1
    ring
  have h3 : calculateDistance (bkPt 2) (bkPt 1) = deg1 := by
    rw [calculateDistance_comm]
    exact h2
  have h4 : calculateDistance (bkPt 1) (bkPt 0) = deg1 := by
    rw [calculateDistance_comm]
    exact h1
  have hsq : legSums [bkPt 0, bkPt 1, bkPt 2, bkPt 1]
      = (deg1 + (deg1 + (deg1 + 0)), deg1 + (deg1 + (deg1 + 0))) := by
    simp only [legSums, h1, h2, h3]
    norm_num [bkPt]
  have hlast : ([bkPt 0, bkPt 1, bkPt 2, bkPt 1] : List GeoPoint).getLastD default
      = bkPt 1 := rfl
  have hfirst : ([bkPt 0, bkPt 1, bkPt 2, bkPt 1] : List GeoPoint).getD 0 default
      = bkPt 0 := rfl
  have hper : amPerimeter [bkPt 0, bkPt 1, bkPt 2, bkPt 1] true = 4 * deg1 := by
    unfold amPerimeter
    rw [if_pos ⟨Or.inl rfl, by norm_num⟩, hsq, hlast, hfirst, h4]
    norm_num
    ring
  have hbl : amBunkerLength [bkPt 0, bkPt 1, bkPt 2, bkPt 1] = 3 * deg1 := by
    unfold amBunkerLength
    rw [hsq]
    norm_num
    ring
  have hpct : amBunkerPct [bkPt 0, bkPt 1, bkPt 2, bkPt 1] true = 75 := by
    unfold amBunkerPct
    rw [hper, hbl, if_pos (mul_pos (by norm_num) deg1_pos : (0 : ℝ) < 4 * deg1)]
    rw [show 3 * deg1 / (4 * deg1) * 100 = (75 : ℝ) from ?_]
    · exact jsRound_75
    · have hne : deg1 ≠ 0 := ne_of_gt deg1_pos
      field_simp
      ring
  exact ⟨rfl, rfl, rfl, by norm_num, hpct, by norm_num⟩

/-! ## Auto-closure -/

/-- A mapped meridian sample at `k` microdegrees of latitude, tagged
`green`. -/
noncomputable def uPt (k : ℝ) : GeoPoint := ⟨k / 1000000, 0, none, 0, 0, some PointType.green⟩

/-- One microdegree of latitude in meters on the model sphere
(≈ 0.1112 m). -/
noncomputable def microMeter : ℝ := 6371000 * Real.pi / 180000000

lemma microMeter_lb : 0.111 < microMeter := by
  unfold microMeter
  nlinarith [Real.pi_gt_d2]

lemma microMeter_ub : microMeter < 0.112 := by
  unfold microMeter
  nlinarith [Real.pi_lt_d2]

lemma dist_uPt (a b : ℝ) (h : a ≤ b) (h2 : b - a < 1000000) :
    calculateDistance (uPt a) (uPt b) = (b - a) * microMeter := by
  have hle : (uPt a).lat ≤ (uPt b).lat := by
    simp only [uPt]
    linarith
  have hlt : (uPt b).lat - (uPt a).lat < 180 := by
    simp only [uPt]
    linarith
  rw [calculateDistance_meridian (uPt a) (uPt b) rfl hle hlt]
  simp only [uPt]
  unfold microMeter
  ring

/-- The vertex list produced by the mapping effect when the sample clears
the movement filter. -/
lemma mapEffectStep_mapPoints_accepted (st : MapEffState) (pos last : GeoPoint)
    (hA : st.mapActive = true) (hl : st.mapPoints.getLast? = some last)
    (hd : 0.5 ≤ calculateDistance last pos) :
    (mapEffectStep st pos).mapPoints
      = st.mapPoints ++ [{ pos with ptype := sampleTag st.isBunker }] := by
  rw [mapEffectStep_mapPoints st pos hA, hl]
  simp [hd]

/-! ### The haversine distance as a spherical central angle

Settling the auto-closure claim requires the triangle inequality for
`calculateDistance`: the haversine value is `R` times the central angle
between the two points' unit vectors, and central angles obey the triangle
inequality via Cauchy-Schwarz. -/

lemma sin_half_sq (x : ℝ) :
    Real.sin (x / 2) * Real.sin (x / 2) = (1 - Real.cos x) / 2 := by
  have h1 := Real.cos_two_mul (x / 2)
  have h2 := Real.sin_sq_add_cos_sq (x / 2)
  have hx : 2 * (x / 2) = x := by ring
  rw [hx] at h1
  linear_combination (1 / 2) * h1 + h2

/-- The x-coordinate of the unit vector of a point on the model sphere. -/
noncomputable def sphX (p : GeoPoint) : ℝ :=
  Real.cos (p.lat * Real.pi / 180) * Real.cos (p.lng * Real.pi / 180)

/-- The y-coordinate of the unit vector of a point on the model sphere. -/
noncomputable def sphY (p : GeoPoint) : ℝ :=
  Real.cos (p.lat * Real.pi / 180) * Real.sin (p.lng * Real.pi / 180)

/-- The z-coordinate of the unit vector of a point on the model sphere. -/
noncomputable def sphZ (p : GeoPoint) : ℝ := Real.sin (p.lat * Real.pi / 180)

/-- The inner product of the unit vectors of two points. -/
noncomputable def sphDot (p q : GeoPoint) : ℝ :=
  sphX p * sphX q + sphY p * sphY q + sphZ p * sphZ q

lemma sphNorm (p : GeoPoint) : sphX p ^ 2 + sphY p ^ 2 + sphZ p ^ 2 = 1 := by
  unfold sphX sphY sphZ
  have h1 := Real.sin_sq_add_cos_sq (p.lat * Real.pi / 180)
  have h2 := Real.sin_sq_add_cos_sq (p.lng * Real.pi / 180)
  linear_combination (Real.cos (p.lat * Real.pi / 180)) ^ 2 * h2 + h1

/-- The haversine `a`-term equals `(1 - cos σ)/2` for the central angle σ. -/
lemma haversine_a_eq (p1 p2 : GeoPoint) :
    Real.sin ((p2.lat - p1.lat) * Real.pi / 180 / 2) *
        Real.sin ((p2.lat - p1.lat) * Real.pi / 180 / 2)
      + Real.cos (p1.lat * Real.pi / 180) * Real.cos (p2.lat * Real.pi / 180) *
        (Real.sin ((p2.lng - p1.lng) * Real.pi / 180 / 2) *
          Real.sin ((p2.lng - p1.lng) * Real.pi / 180 / 2))
    = (1 - sphDot p1 p2) / 2 := by
  rw [show (p2.lat - p1.lat) * Real.pi / 180 / 2
      = (p2.lat * Real.pi / 180 - p1.lat * Real.pi / 180) / 2 from by ring,
    show (p2.lng - p1.lng) * Real.pi / 180 / 2
      = (p2.lng * Real.pi / 180 - p1.lng * Real.pi / 180) / 2 from by ring,
    sin_half_sq, sin_half_sq, Real.cos_sub, Real.cos_sub]
  unfold sphDot sphX sphY sphZ
  ring

lemma cauchy_schwarz_triple (x1 x2 x3 y1 y2 y3 : ℝ) :
    (x1 * y1 + x2 * y2 + x3 * y3) ^ 2
      ≤ (x1 ^ 2 + x2 ^ 2 + x3 ^ 2) * (y1 ^ 2 + y2 ^ 2 + y3 ^ 2) := by
  nlinarith [sq_nonneg (x1 * y2 - x2 * y1), sq_nonneg (x1 * y3 - x3 * y1),
    sq_nonneg (x2 * y3 - x3 * y2)]

lemma sphDot_sq_le_one (p q : GeoPoint) : sphDot p q ^ 2 ≤ 1 := by
  have h := cauchy_schwarz_triple (sphX p) (sphY p) (sphZ p) (sphX q) (sphY q) (sphZ q)
  rw [sphNorm p, sphNorm q] at h
  unfold sphDot
  nlinarith [h]

lemma neg_one_le_sphDot (p q : GeoPoint) : -1 ≤ sphDot p q := by
  nlinarith [sphDot_sq_le_one p q]

lemma sphDot_le_one (p q : GeoPoint) : sphDot p q ≤ 1 := by
  nlinarith [sphDot_sq_le_one p q]

/-- The haversine distance is `R` times the central angle `arccos ⟨u, v⟩`. -/
lemma calculateDistance_eq_arccos (p1 p2 : GeoPoint) :
    calculateDistance p1 p2 = 6371000 * Real.arccos (sphDot p1 p2) := by
  have hlo := neg_one_le_sphDot p1 p2
  have hhi := sphDot_le_one p1 p2
  simp only [calculateDistance]
  rw [haversine_a_eq]
  set d := sphDot p1 p2 with hd
  rw [show (1 : ℝ) - (1 - d) / 2 = (1 + d) / 2 from by ring]
  have hs_nonneg : (0 : ℝ) ≤ (1 - d) / 2 := by linarith
  have hc_nonneg : (0 : ℝ) ≤ (1 + d) / 2 := by linarith
  set s := Real.sqrt ((1 - d) / 2) with hs
  set c := Real.sqrt ((1 + d) / 2) with hc
  have hs0 : 0 ≤ s := Real.sqrt_nonneg _
  have hc0 : 0 ≤ c := Real.sqrt_nonneg _
  have hs2 : s ^ 2 = (1 - d) / 2 := Real.sq_sqrt hs_nonneg
  have hc2 : c ^ 2 = (1 + d) / 2 := Real.sq_sqrt hc_nonneg
  have hs1 : s ≤ 1 := by nlinarith
  set theta := Real.arcsin s with htheta
  have htheta0 : 0 ≤ theta := Real.arcsin_nonneg.mpr hs0
  have hthetatop : theta ≤ Real.pi / 2 := Real.arcsin_le_pi_div_two s
  have hsintheta : Real.sin theta = s := Real.sin_arcsin (by linarith) hs1
  have hcostheta : Real.cos theta = c := by
    rw [htheta, Real.cos_arcsin,
      show (1 : ℝ) - s ^ 2 = (1 + d) / 2 from by rw [hs2]; ring]
  have hatan : atan2 s c = theta := by
    rcases lt_or_eq_of_le hc0 with hcpos | hceq
    · have hthetalt : theta < Real.pi / 2 := by
        rcases lt_or_eq_of_le hthetatop with h | h
        · exact h
        · exfalso
          rw [← hcostheta, h, Real.cos_pi_div_two] at hcpos
          exact lt_irrefl 0 hcpos
      simp only [atan2]
      rw [if_pos hcpos, ← hsintheta, ← hcostheta, ← Real.tan_eq_sin_div_cos,
        Real.arctan_tan (by linarith) hthetalt]
    · have hceq' : c = 0 := hceq.symm
      have hd1 : d = -1 := by nlinarith [hc2]
      have hs1' : s = 1 := by
        rw [hs, hd1, show ((1 : ℝ) - (-1)) / 2 = 1 from by norm_num, Real.sqrt_one]
      rw [hceq', hs1']
      simp only [atan2]
      norm_num
      rw [htheta, hs1', Real.arcsin_one]
  rw [hatan]
  have hcos2theta : Real.cos (2 * theta) = d := by
    rw [Real.cos_two_mul, hcostheta, hc2]
    ring
  rw [show Real.arccos d = 2 * theta from by
    rw [← hcos2theta]
    exact Real.arccos_cos (by linarith) (by linarith [Real.pi_pos])]

lemma proj_cs (a1 a2 a3 b1 b2 b3 c1 c2 c3 : ℝ)
    (ha : a1 ^ 2 + a2 ^ 2 + a3 ^ 2 = 1) (hb : b1 ^ 2 + b2 ^ 2 + b3 ^ 2 = 1)
    (hc : c1 ^ 2 + c2 ^ 2 + c3 ^ 2 = 1) :
    ((a1 * c1 + a2 * c2 + a3 * c3)
        - (a1 * b1 + a2 * b2 + a3 * b3) * (b1 * c1 + b2 * c2 + b3 * c3)) ^ 2
      ≤ (1 - (a1 * b1 + a2 * b2 + a3 * b3) ^ 2)
        * (1 - (b1 * c1 + b2 * c2 + b3 * c3) ^ 2) := by
  have key := cauchy_schwarz_triple
    (a1 - (a1 * b1 + a2 * b2 + a3 * b3) * b1) (a2 - (a1 * b1 + a2 * b2 + a3 * b3) * b2)
    (a3 - (a1 * b1 + a2 * b2 + a3 * b3) * b3)
    (c1 - (b1 * c1 + b2 * c2 + b3 * c3) * b1) (c2 - (b1 * c1 + b2 * c2 + b3 * c3) * b2)
    (c3 - (b1 * c1 + b2 * c2 + b3 * c3) * b3)
  have h1 : (a1 - (a1 * b1 + a2 * b2 + a3 * b3) * b1)
        * (c1 - (b1 * c1 + b2 * c2 + b3 * c3) * b1)
      + (a2 - (a1 * b1 + a2 * b2 + a3 * b3) * b2)
        * (c2 - (b1 * c1 + b2 * c2 + b3 * c3) * b2)
      + (a3 - (a1 * b1 + a2 * b2 + a3 * b3) * b3)
        * (c3 - (b1 * c1 + b2 * c2 + b3 * c3) * b3)
      = (a1 * c1 + a2 * c2 + a3 * c3)
        - (a1 * b1 + a2 * b2 + a3 * b3) * (b1 * c1 + b2 * c2 + b3 * c3) := by
    linear_combination ((a1 * b1 + a2 * b2 + a3 * b3) * (b1 * c1 + b2 * c2 + b3 * c3)) * hb
  have h2 : (a1 - (a1 * b1 + a2 * b2 + a3 * b3) * b1) ^ 2
      + (a2 - (a1 * b1 + a2 * b2 + a3 * b3) * b2) ^ 2
      + (a3 - (a1 * b1 + a2 * b2 + a3 * b3) * b3) ^ 2
      = 1 - (a1 * b1 + a2 * b2 + a3 * b3) ^ 2 := by
    linear_combination ha + (a1 * b1 + a2 * b2 + a3 * b3) ^ 2 * hb
  have h3 : (c1 - (b1 * c1 + b2 * c2 + b3 * c3) * b1) ^ 2
      + (c2 - (b1 * c1 + b2 * c2 + b3 * c3) * b2) ^ 2
      + (c3 - (b1 * c1 + b2 * c2 + b3 * c3) * b3) ^ 2
      = 1 - (b1 * c1 + b2 * c2 + b3 * c3) ^ 2 := by
    linear_combination hc + (b1 * c1 + b2 * c2 + b3 * c3) ^ 2 * hb
  rw [h1, h2, h3] at key
  exact key

lemma sphDot_proj_bound (p q r : GeoPoint) :
    (sphDot p r - sphDot p q * sphDot q r) ^ 2
      ≤ (1 - sphDot p q ^ 2) * (1 - sphDot q r ^ 2) := by
  have h := proj_cs (sphX p) (sphY p) (sphZ p) (sphX q) (sphY q) (sphZ q)
    (sphX r) (sphY r) (sphZ r) (sphNorm p) (sphNorm q) (sphNorm r)
  unfold sphDot
  exact h

/-- Central angles satisfy the triangle inequality. -/
lemma arccos_sphDot_triangle (p q r : GeoPoint) :
    Real.arccos (sphDot p r) ≤ Real.arccos (sphDot p q) + Real.arccos (sphDot q r) := by
  have h1lo := neg_one_le_sphDot p q
  have h1hi := sphDot_le_one p q
  have h2lo := neg_one_le_sphDot q r
  have h2hi := sphDot_le_one q r
  have h3lo := neg_one_le_sphDot p r
  have h3hi := sphDot_le_one p r
  set alpha := Real.arccos (sphDot p q) with halpha
  set beta := Real.arccos (sphDot q r) with hbeta
  have halpha0 : 0 ≤ alpha := Real.arccos_nonneg _
  have hbeta0 : 0 ≤ beta := Real.arccos_nonneg _
  by_cases hpi : Real.pi ≤ alpha + beta
  · exact le_trans (Real.arccos_le_pi _) (by linarith)
  · push_neg at hpi
    have hcosab : Real.cos (alpha + beta) ≤ sphDot p r := by
      rw [Real.cos_add, halpha, hbeta, Real.cos_arccos h1lo h1hi,
        Real.cos_arccos h2lo h2hi, Real.sin_arccos, Real.sin_arccos]
      have hq := sphDot_proj_bound p q r
      have habs : |sphDot p r - sphDot p q * sphDot q r|
          ≤ Real.sqrt (1 - sphDot p q ^ 2) * Real.sqrt (1 - sphDot q r ^ 2) := by
        rw [← Real.sqrt_sq_eq_abs,
          ← Real.sqrt_mul (by nlinarith : (0 : ℝ) ≤ 1 - sphDot p q ^ 2)]
        exact Real.sqrt_le_sqrt hq
      have hpair := abs_le.mp habs
      linarith [hpair.1]
    by_contra hcon
    push_neg at hcon
    have hmem1 : alpha + beta ∈ Set.Icc (0 : ℝ) Real.pi := ⟨by linarith, le_of_lt hpi⟩
    have hmem2 : Real.arccos (sphDot p r) ∈ Set.Icc (0 : ℝ) Real.pi :=
      ⟨Real.arccos_nonneg _, Real.arccos_le_pi _⟩
    have hlt := Real.strictAntiOn_cos hmem1 hmem2 hcon
    rw [Real.cos_arccos h3lo h3hi] at hlt
    linarith

/-- The haversine distance satisfies the triangle inequality. -/
lemma calculateDistance_triangle (p q r : GeoPoint) :
    calculateDistance p r ≤ calculateDistance p q + calculateDistance q r := by
  rw [calculateDistance_eq_arccos, calculateDistance_eq_arccos, calculateDistance_eq_arccos]
  have h := arccos_sphDot_triangle p q r
  linarith

lemma calculateDistance_nonneg (p q : GeoPoint) : 0 ≤ calculateDistance p q := by
  rw [calculateDistance_eq_arccos]
  have h := Real.arccos_nonneg (sphDot p q)
  linarith

/-! ### The settled auto-closure behaviour -/

/-- The recorded `ptype` tag never enters the distance computation. -/
lemma calculateDistance_ptype_left (p q : GeoPoint) (t : Option PointType) :
    calculateDistance { p with ptype := t } q = calculateDistance p q := rfl

/-- The recorded `ptype` tag never enters the distance computation. -/
lemma calculateDistance_ptype_right (p q : GeoPoint) (t : Option PointType) :
    calculateDistance p { q with ptype := t } = calculateDistance p q := rfl

lemma getLast?_append_singleton (L : List GeoPoint) (x : GeoPoint) :
    (L ++ [x]).getLast? = some x := by
  induction L with
  | nil => rfl
  | cons a t ih =>
    rcases hE : t ++ [x] with _ | ⟨b, s⟩
    · exact absurd hE (by simp)
    · rw [List.cons_append, hE, List.getLast?_cons_cons, ← hE, ih]

lemma getLastD_eq_some (L : List GeoPoint) (l d : GeoPoint) :
    L.getLast? = some l → L.getLastD d = l := by
  induction L generalizing d with
  | nil => intro h; simp at h
  | cons a tL ih =>
    intro hl
    cases tL with
    | nil =>
      have h : some a = some l := hl
      exact Option.some.inj h
    | cons b tt =>
      have hl' : (b :: tt).getLast? = some l := by rwa [List.getLast?_cons_cons] at hl
      rw [List.getLastD_cons]
      exact ih a hl'

lemma getD_zero_append (L : List GeoPoint) (x : GeoPoint) (h : L ≠ []) :
    (L ++ [x]).getD 0 default = L.getD 0 default := by
  cases L with
  | nil => exact absurd rfl h
  | cons a t => rfl

lemma legSums_fst_append_last (L : List GeoPoint) (l x : GeoPoint)
    (hl : L.getLast? = some l) :
    (legSums (L ++ [x])).1 = (legSums L).1 + calculateDistance l x := by
  induction L with
  | nil => simp at hl
  | cons p rest ih =>
    cases rest with
    | nil =>
      have h : some p = some l := hl
      injection h with h2
      subst h2
      simp [legSums]
    | cons q rr =>
      have hl' : (q :: rr).getLast? = some l := by rwa [List.getLast?_cons_cons] at hl
      rw [List.cons_append, List.cons_append]
      simp only [legSums]
      have ih' : (legSums (q :: (rr ++ [x]))).1
          = (legSums (q :: rr)).1 + calculateDistance l x := by
        rw [← List.cons_append]
        exact ih hl'
      rw [ih']
      ring

/-- The settled result of feeding one sample to the green-mapper effect.
The effect's dependency array contains `areaMetrics` and `finalizeMapping`
(`src/index.tsx` line 750, `src/unnamed/part_003` line 366), both of which
change identity whenever `setMapPoints` appends, so React re-runs the effect
with the same `pos` against the post-append state; a second application of
`mapEffectStep` captures that re-run.  Further runs change nothing: either
the state is unchanged or the session has become inactive. -/
noncomputable def mapEffectSettled (st : MapEffState) (pos : GeoPoint) : MapEffState :=
  mapEffectStep (mapEffectStep st pos) pos

lemma mapEffectStep_inactive (st : MapEffState) (pos : GeoPoint)
    (hA : st.mapActive = false) : mapEffectStep st pos = st := by
  simp only [mapEffectStep]
  rw [if_neg (show ¬ st.mapActive = true from by rw [hA]; simp)]

lemma mapEffectStep_close_fields (st : MapEffState) (pos : GeoPoint)
    (hA : st.mapActive = true)
    (h : 5 < st.mapPoints.length ∧ 5 < amPerimeter st.mapPoints st.mapCompleted ∧
      calculateDistance pos (st.mapPoints.getD 0 default) < 1) :
    (mapEffectStep st pos).mapActive = false ∧ (mapEffectStep st pos).mapCompleted = true := by
  simp only [mapEffectStep]
  rw [if_pos hA, if_pos h]
  exact ⟨rfl, rfl⟩

lemma mapEffectStep_noclose_fields (st : MapEffState) (pos : GeoPoint)
    (hA : st.mapActive = true)
    (h : ¬ (5 < st.mapPoints.length ∧ 5 < amPerimeter st.mapPoints st.mapCompleted ∧
      calculateDistance pos (st.mapPoints.getD 0 default) < 1)) :
    (mapEffectStep st pos).mapActive = true
      ∧ (mapEffectStep st pos).mapCompleted = st.mapCompleted
      ∧ (mapEffectStep st pos).isBunker = st.isBunker := by
  simp only [mapEffectStep]
  rw [if_pos hA, if_neg h]
  exact ⟨hA, rfl, rfl⟩

/-- The auto-closure conditions are monotone along the append: if the stale
pre-append list already satisfies them, so does the post-append list — the
count grows, the sample-to-first distance is shared, and the perimeter can
only grow by the triangle inequality. -/
lemma closure_cond_mono (st : MapEffState) (pos l : GeoPoint)
    (hC : st.mapCompleted = false) (hl : st.mapPoints.getLast? = some l)
    (hpre : 5 < st.mapPoints.length ∧ 5 < amPerimeter st.mapPoints st.mapCompleted ∧
      calculateDistance pos (st.mapPoints.getD 0 default) < 1) :
    5 < (st.mapPoints ++ [{ pos with ptype := sampleTag st.isBunker }]).length
      ∧ 5 < amPerimeter (st.mapPoints ++ [{ pos with ptype := sampleTag st.isBunker }]) false
      ∧ calculateDistance pos
          ((st.mapPoints ++ [{ pos with ptype := sampleTag st.isBunker }]).getD 0 default)
        < 1 := by
  obtain ⟨hn, hperim, hdist⟩ := hpre
  have hne : st.mapPoints ≠ [] := by
    intro hcontra
    rw [hcontra] at hl
    simp at hl
  refine ⟨?_, ?_, ?_⟩
  · rw [List.length_append]
    simp only [List.length_cons, List.length_nil]
    omega
  · have hpostlast : (st.mapPoints ++ [{ pos with ptype := sampleTag st.isBunker }]).getLastD
        default = { pos with ptype := sampleTag st.isBunker } :=
      getLastD_eq_some _ _ _ (getLast?_append_singleton _ _)
    have hpostfirst : (st.mapPoints ++ [{ pos with ptype := sampleTag st.isBunker }]).getD 0
        default = st.mapPoints.getD 0 default := getD_zero_append _ _ hne
    have hlen2 : 2 < (st.mapPoints ++ [{ pos with ptype := sampleTag st.isBunker }]).length := by
      rw [List.length_append]
      simp only [List.length_cons, List.length_nil]
      omega
    have hclosing : calculateDistance
        ((st.mapPoints ++ [{ pos with ptype := sampleTag st.isBunker }]).getLastD default)
        ((st.mapPoints ++ [{ pos with ptype := sampleTag st.isBunker }]).getD 0 default) < 1 := by
      rw [hpostlast, hpostfirst, calculateDistance_ptype_left]
      exact hdist
    unfold amPerimeter
    rw [if_pos ⟨Or.inr ⟨hlen2, hclosing⟩, hlen2⟩]
    rw [hpostlast, hpostfirst, calculateDistance_ptype_left,
      legSums_fst_append_last st.mapPoints l _ hl, calculateDistance_ptype_right]
    have hpre_val := hperim
    unfold amPerimeter at hpre_val
    rw [hC] at hpre_val
    by_cases hcl : 2 < st.mapPoints.length ∧
        calculateDistance (st.mapPoints.getLastD default) (st.mapPoints.getD 0 default) < 1
    · rw [if_pos ⟨Or.inr hcl, hcl.1⟩] at hpre_val
      rw [getLastD_eq_some _ _ _ hl] at hpre_val
      have htri := calculateDistance_triangle l pos (st.mapPoints.getD 0 default)
      linarith
    · rw [if_neg ?hni] at hpre_val
      case hni =>
        intro hcontra
        rcases hcontra.1 with h | h
        · simp at h
        · exact hcl h
      have hd1 := calculateDistance_nonneg l pos
      have hd2 := calculateDistance_nonneg pos (st.mapPoints.getD 0 default)
      linarith
  · rw [getD_zero_append _ _ hne]
    exact hdist

/-- C5: for an active, non-closed mapping session holding at least one
vertex, once a sample is admitted and appended the settled effect marks the
session closed exactly when all three conditions hold of the post-append
session: its vertex count exceeds the minimum vertex count (5), its
`areaMetrics` perimeter-so-far exceeds the minimum length (5 m), and the
appended sample lies within the closure radius (1.0 m) of the first vertex. -/
theorem claim_C5_auto_closure (st : MapEffState) (pos l : GeoPoint)
    (hA : st.mapActive = true) (hC : st.mapCompleted = false)
    (hl : st.mapPoints.getLast? = some l) (hd : 0.5 ≤ calculateDistance l pos) :
    (mapEffectSettled st pos).mapPoints
      = st.mapPoints ++ [{ pos with ptype := sampleTag st.isBunker }]
    ∧ ((mapEffectSettled st pos).mapCompleted = true ↔
      (5 < (st.mapPoints ++ [{ pos with ptype := sampleTag st.isBunker }]).length
        ∧ 5 < amPerimeter (st.mapPoints ++ [{ pos with ptype := sampleTag st.isBunker }]) false
        ∧ calculateDistance pos
            ((st.mapPoints ++ [{ pos with ptype := sampleTag st.isBunker }]).getD 0 default)
          < 1)) := by
  have h1p := mapEffectStep_mapPoints_accepted st pos l hA hl hd
  by_cases hpre : 5 < st.mapPoints.length ∧ 5 < amPerimeter st.mapPoints st.mapCompleted ∧
      calculateDistance pos (st.mapPoints.getD 0 default) < 1
  · have hcf := mapEffectStep_close_fields st pos hA hpre
    have hstop := mapEffectStep_inactive (mapEffectStep st pos) pos hcf.1
    unfold mapEffectSettled
    rw [hstop]
    refine ⟨h1p, ?_⟩
    rw [hcf.2]
    exact iff_of_true rfl (closure_cond_mono st pos l hC hl hpre)
  · have hnf := mapEffectStep_noclose_fields st pos hA hpre
    have hA1 : (mapEffectStep st pos).mapActive = true := hnf.1
    have hC1 : (mapEffectStep st pos).mapCompleted = false := by rw [hnf.2.1, hC]
    have hl1 : (mapEffectStep st pos).mapPoints.getLast?
        = some ({ pos with ptype := sampleTag st.isBunker }) := by
      rw [h1p]
      exact getLast?_append_singleton _ _
    have hd0 : calculateDistance ({ pos with ptype := sampleTag st.isBunker } : GeoPoint) pos
        = 0 := by
      rw [calculateDistance_ptype_left]
      exact calculateDistance_self pos
    have h2p : (mapEffectStep (mapEffectStep st pos) pos).mapPoints
        = (mapEffectStep st pos).mapPoints := by
      rw [mapEffectStep_mapPoints (mapEffectStep st pos) pos hA1, hl1]
      simp [hd0]
      norm_num
    unfold mapEffectSettled
    by_cases hpost : 5 < (mapEffectStep st pos).mapPoints.length
        ∧ 5 < amPerimeter (mapEffectStep st pos).mapPoints (mapEffectStep st pos).mapCompleted
        ∧ calculateDistance pos ((mapEffectStep st pos).mapPoints.getD 0 default) < 1
    · have h2cf := mapEffectStep_close_fields (mapEffectStep st pos) pos hA1 hpost
      refine ⟨by rw [h2p, h1p], ?_⟩
      rw [h2cf.2]
      refine iff_of_true rfl ?_
      rw [h1p, hnf.2.1, hC] at hpost
      exact hpost
    · have h2nf := mapEffectStep_noclose_fields (mapEffectStep st pos) pos hA1 hpost
      refine ⟨by rw [h2p, h1p], ?_⟩
      rw [h2nf.2.1, hC1]
      refine iff_of_false (by simp) ?_
      intro hcontra
      apply hpost
      rw [h1p, hnf.2.1, hC]
      exact hcontra

lemma c5_leg_0_14 : calculateDistance (uPt 0) (uPt 14) = 14 * microMeter := by
  rw [dist_uPt 0 14 (by norm_num) (by norm_num)]
  norm_num

lemma c5_leg_14_28 : calculateDistance (uPt 14) (uPt 28) = 14 * microMeter := by
  rw [dist_uPt 14 28 (by norm_num) (by norm_num)]
  norm_num

lemma c5_leg_28_42 : calculateDistance (uPt 28) (uPt 42) = 14 * microMeter := by
  rw [dist_uPt 28 42 (by norm_num) (by norm_num)]
  norm_num

lemma c5_leg_42_56 : calculateDistance (uPt 42) (uPt 56) = 14 * microMeter := by
  rw [dist_uPt 42 56 (by norm_num) (by norm_num)]
  norm_num

lemma c5_leg_56_70 : calculateDistance (uPt 56) (uPt 70) = 14 * microMeter := by
  rw [dist_uPt 56 70 (by norm_num) (by norm_num)]
  norm_num

lemma c5_cand_to_first : calculateDistance (uPt 8) (uPt 0) = 8 * microMeter := by
  rw [calculateDistance_comm, dist_uPt 0 8 (by norm_num) (by norm_num)]
  norm_num

/-- The six recorded vertices of the C5 witness: a meridian walk with
14-microdegree (about 1.56 m) legs. -/
noncomputable def w5pts : List GeoPoint := [uPt 0, uPt 14, uPt 28, uPt 42, uPt 56, uPt 70]

/-- The C5 witness session state: active, not completed, bunker mode off. -/
noncomputable def w5st : MapEffState := ⟨true, false, false, w5pts⟩

/-- The appended C5 witness sample, as tagged by the effect. -/
noncomputable def w5tagged : GeoPoint := { uPt 8 with ptype := sampleTag false }

/-- The post-append vertex list of the C5 witness. -/
noncomputable def w5post : List GeoPoint :=
  [uPt 0, uPt 14, uPt 28, uPt 42, uPt 56, uPt 70, w5tagged]

/-- Witness for C5 at a concrete session: 7 post-append vertices, a
post-append perimeter of about 15.6 m, and a sample 0.89 m from the first
vertex; the settled effect closes the session. -/
theorem claim_C5_auto_closure_witness :
    (mapEffectSettled w5st (uPt 8)).mapCompleted = true := by
  have hadmit : (0.5 : ℝ) ≤ calculateDistance (uPt 70) (uPt 8) := by
    rw [calculateDistance_comm, dist_uPt 8 70 (by norm_num) (by norm_num)]
    nlinarith [microMeter_lb]
  have hta : calculateDistance (uPt 70) w5tagged = 62 * microMeter := by
    rw [show calculateDistance (uPt 70) w5tagged = calculateDistance (uPt 70) (uPt 8) from rfl,
      calculateDistance_comm, dist_uPt 8 70 (by norm_num) (by norm_num)]
    norm_num
  have htb : calculateDistance w5tagged (uPt 0) = 8 * microMeter := by
    rw [show calculateDistance w5tagged (uPt 0) = calculateDistance (uPt 8) (uPt 0) from rfl,
      c5_cand_to_first]
  have hmain := claim_C5_auto_closure w5st (uPt 8) (uPt 70) rfl rfl rfl hadmit
  apply hmain.2.mpr
  have hlist : w5st.mapPoints ++ [({ uPt 8 with ptype := sampleTag w5st.isBunker } : GeoPoint)]
      = w5post := rfl
  rw [hlist]
  refine ⟨by simp [w5post, w5pts, w5tagged], ?_, ?_⟩
  · have hsum : (legSums w5post).1 = 132 * microMeter := by
      simp [w5post, legSums, c5_leg_0_14, c5_leg_14_28, c5_leg_28_42, c5_leg_42_56,
        c5_leg_56_70, hta]
      ring
    unfold amPerimeter
    rw [if_pos ?hcond]
    case hcond =>
      refine ⟨Or.inr ⟨by simp [w5post], ?_⟩, by simp [w5post]⟩
      rw [show w5post.getLastD default = w5tagged from rfl,
        show w5post.getD 0 default = uPt 0 from rfl, htb]
      nlinarith [microMeter_ub]
    rw [show w5post.getLastD default = w5tagged from rfl,
      show w5post.getD 0 default = uPt 0 from rfl, htb, hsum]
    nlinarith [microMeter_lb]
  · rw [show w5post.getD 0 default = uPt 0 from rfl, c5_cand_to_first]
    nlinarith [microMeter_ub]

end GolfRating
